import Mathlib

/-!
Verification development for the walking-pi-bot-2 robot.

Shallow embedding of the actuator / behaviour engine code:
* `joint.py`   — the `Joint` servo primitive (`_limitedAngle`, `moveTo`,
  `moveToT`, the `moveRelativeTo*` family, `moveDirectTo`, `nudge`),
  angles modelled over `ℚ`;
* `leg.py`     — `Leg` compound moves (`reachForward`, `pushForward`,
  `pushBackward`) modelled as the list of joint commands they issue;
* `animal.py`  — the per-leg thread scheduler (`_runOnThread`) and the
  action layer (`runAction` / `stopCurrentAction`), modelled as explicit
  state transitions that also emit an event trace (`join` / `start` ...);
* `random_animal.py` — the behaviour tick dispatch of `_runRandom`, the
  timer (`_setTimer` / `_executeTimer`) and `interrupt`.
-/

namespace WalkingBot

/-! ### easing.py -/

/-- `easeInOutQuad` from easing.py: `2 t²` below one half, `-1+(4-2t)t` above. -/
def easeInOutQuad (t : ℚ) : ℚ :=
  if t < 1/2 then 2 * t * t else -1 + (4 - 2 * t) * t

/-- joint.py selects `easeInOutQuad` as the easing function `ease`. -/
def ease (t : ℚ) : ℚ := easeInOutQuad t

/-- Python `int()` truncates toward zero: floor for nonnegative arguments,
ceiling for negative ones. -/
def pyInt (q : ℚ) : ℤ := if 0 ≤ q then ⌊q⌋ else ⌈q⌉

/-! ### joint.py : the Joint class

State of one `Joint`: the calibration angles, the interpolation density
`stepsPerDegree`, and the cached current angle `_angle` (field `angle`).
The servo pin and the servo driver object carry no coordination state and
are omitted. -/

structure Joint where
  midAngle : ℚ
  highAngle : ℚ
  lowAngle : ℚ
  stepsPerDegree : ℚ
  angle : ℚ
deriving DecidableEq

/-- `Joint._limitedAngle`: clamp `a` to the allowable range. -/
def limitedAngle (j : Joint) (a : ℚ) : ℚ :=
  if a > j.highAngle then j.highAngle
  else if a < j.lowAngle then j.lowAngle
  else a

/-- Number of iterations of the step loop in `Joint.moveTo`:
`range(int(abs(delta) * self.stepsPerDegree))` where
`delta = limitedAngle(newAngle) - self._angle`. -/
def moveToLoopSteps (j : Joint) (newAngle : ℚ) : ℕ :=
  (pyInt (|limitedAngle j newAngle - j.angle| * j.stepsPerDegree)).toNat

/-- The wait between steps in `Joint.moveTo`: initialised to `0`, and set to
`secs / abs(delta) / stepsPerDegree` only under the guard `abs(delta) > 0`. -/
def moveToWait (j : Joint) (newAngle secs : ℚ) : ℚ :=
  let delta := limitedAngle j newAngle - j.angle
  if 0 < |delta| then secs / |delta| / j.stepsPerDegree else 0

/-- `Joint.moveTo(newAngle, secs)`: returns the final joint state and the
list of servo angle commands issued (`self._servo.angle(...)` calls): one
per loop iteration, then the final force-set to the clamped target.  The
cached `_angle` is updated to the clamped target after the loop. -/
def moveToRun (j : Joint) (newAngle secs : ℚ) : Joint × List ℚ :=
  let na := limitedAngle j newAngle
  let delta := na - j.angle
  let loopCmds := (List.range (moveToLoopSteps j newAngle)).map
    (fun i : ℕ => j.angle + delta * ease (((i : ℚ) / j.stepsPerDegree) / |delta|))
  ({ j with angle := na }, loopCmds ++ [na])

/-- `Joint.moveTo`, state part. `secs` only affects timing, not the state. -/
def moveTo (j : Joint) (newAngle secs : ℚ) : Joint := (moveToRun j newAngle secs).1

/-- `Joint.moveToT`: same clamp and same final state as `moveTo` (only the
per-step wait computation differs). -/
def moveToT (j : Joint) (newAngle secs : ℚ) : Joint :=
  { j with angle := limitedAngle j newAngle }

/-- `Joint.moveRelativeToCurrent`: clamp `angle + delta`, then `moveTo`. -/
def moveRelativeToCurrent (j : Joint) (deltaAngle secs : ℚ) : Joint :=
  moveTo j (limitedAngle j (j.angle + deltaAngle)) secs

/-- `Joint.moveRelativeToMid`: clamp `midAngle + delta`, then `moveTo`. -/
def moveRelativeToMid (j : Joint) (deltaAngle secs : ℚ) : Joint :=
  moveTo j (limitedAngle j (j.midAngle + deltaAngle)) secs

/-- `Joint.moveRelativeToLow`: clamp `lowAngle + delta`, then `moveTo`. -/
def moveRelativeToLow (j : Joint) (deltaAngle secs : ℚ) : Joint :=
  moveTo j (limitedAngle j (j.lowAngle + deltaAngle)) secs

/-- `Joint.moveRelativeToHigh`: clamp `highAngle + delta`, then `moveTo`. -/
def moveRelativeToHigh (j : Joint) (deltaAngle secs : ℚ) : Joint :=
  moveTo j (limitedAngle j (j.highAngle + deltaAngle)) secs

/-- `Joint.moveDirectTo`: clamp, command the servo once, cache the angle. -/
def moveDirectTo (j : Joint) (newAngle : ℚ) : Joint :=
  { j with angle := limitedAngle j newAngle }

/-- `Joint.nudge(amount)`: used for calibration; the new angle is
`min(180, max(0, self._angle + amount))` — limited to 0..180, not to the
joint's own `lowAngle`/`highAngle` range. -/
def nudge (j : Joint) (amount : ℚ) : Joint :=
  { j with angle := min 180 (max 0 (j.angle + amount)) }

/-- The angle-bounds invariant claimed by the spec for a joint:
`lowAngle ≤ currentAngle ≤ highAngle`. -/
def JointInv (j : Joint) : Prop :=
  j.lowAngle ≤ j.angle ∧ j.angle ≤ j.highAngle

instance (j : Joint) : Decidable (JointInv j) :=
  inferInstanceAs (Decidable (_ ∧ _))

/-- The clamp lands in `[lowAngle, highAngle]` whenever that interval is
nonempty. -/
lemma limitedAngle_mem (j : Joint) (h : j.lowAngle ≤ j.highAngle) (a : ℚ) :
    j.lowAngle ≤ limitedAngle j a ∧ limitedAngle j a ≤ j.highAngle := by
  unfold limitedAngle
  split_ifs with h1 h2
  · exact ⟨h, le_refl _⟩
  · exact ⟨le_refl _, h⟩
  · exact ⟨le_of_not_lt h2, le_of_not_lt h1⟩

lemma moveTo_angle (j : Joint) (newAngle secs : ℚ) :
    (moveTo j newAngle secs).angle = limitedAngle j newAngle := by
  simp [moveTo, moveToRun]

/-- Claim C3 (corrected): the invariant `lowAngle ≤ angle ≤ highAngle` is
preserved by `moveTo`, `moveToT`, `moveDirectTo` and the whole
`moveRelativeTo*` family, for any starting state satisfying it and any
arguments; `nudge`, however, clamps only to the fixed range `[0, 180]`
(calibration may move the servo outside the configured limits), so after
`nudge` only `0 ≤ angle ≤ 180` is guaranteed. -/
theorem claim_C3 (j : Joint) (hinv : JointInv j) (target d secs : ℚ) :
    JointInv (moveTo j target secs) ∧
    JointInv (moveToT j target secs) ∧
    JointInv (moveDirectTo j target) ∧
    JointInv (moveRelativeToCurrent j d secs) ∧
    JointInv (moveRelativeToMid j d secs) ∧
    JointInv (moveRelativeToLow j d secs) ∧
    JointInv (moveRelativeToHigh j d secs) ∧
    0 ≤ (nudge j d).angle ∧ (nudge j d).angle ≤ 180 := by
  have hlh : j.lowAngle ≤ j.highAngle := le_trans hinv.1 hinv.2
  have hmem := limitedAngle_mem j hlh
  refine ⟨?_, ?_, ?_, ?_, ?_, ?_, ?_, ?_, ?_⟩
  · rw [JointInv, moveTo_angle]; exact hmem target
  · exact hmem target
  · exact hmem target
  · rw [JointInv, moveRelativeToCurrent, moveTo_angle]; exact hmem _
  · rw [JointInv, moveRelativeToMid, moveTo_angle]; exact hmem _
  · rw [JointInv, moveRelativeToLow, moveTo_angle]; exact hmem _
  · rw [JointInv, moveRelativeToHigh, moveTo_angle]; exact hmem _
  · exact le_min (by norm_num) (le_max_left 0 _)
  · exact min_le_left 180 _

/-- Witness for C3 at a concrete joint (mid 90, range 60..120, angle 90). -/
theorem claim_C3_w :
    JointInv (⟨90, 120, 60, 1, 90⟩ : Joint) ∧
    (JointInv (moveTo ⟨90, 120, 60, 1, 90⟩ 200 1) ∧
     JointInv (moveToT ⟨90, 120, 60, 1, 90⟩ 200 1) ∧
     JointInv (moveDirectTo ⟨90, 120, 60, 1, 90⟩ 200) ∧
     JointInv (moveRelativeToCurrent ⟨90, 120, 60, 1, 90⟩ 50 1) ∧
     JointInv (moveRelativeToMid ⟨90, 120, 60, 1, 90⟩ 50 1) ∧
     JointInv (moveRelativeToLow ⟨90, 120, 60, 1, 90⟩ 50 1) ∧
     JointInv (moveRelativeToHigh ⟨90, 120, 60, 1, 90⟩ 50 1) ∧
     0 ≤ (nudge ⟨90, 120, 60, 1, 90⟩ 50).angle ∧
     (nudge ⟨90, 120, 60, 1, 90⟩ 50).angle ≤ 180) :=
  ⟨by decide, claim_C3 ⟨90, 120, 60, 1, 90⟩ (by decide) 200 50 1⟩

/-- Counterexample to C3 as stated: a joint with range 60..120 at angle 90
satisfies the invariant, but `nudge 50` moves the cached angle to 140,
outside `highAngle = 120` (nudge clamps to 0..180 only). -/
theorem claim_C3_cx :
    JointInv (⟨90, 120, 60, 1, 90⟩ : Joint) ∧
    (nudge ⟨90, 120, 60, 1, 90⟩ 50).angle = 140 ∧
    ¬ JointInv (nudge ⟨90, 120, 60, 1, 90⟩ 50) := by
  have h1 : (nudge ⟨90, 120, 60, 1, 90⟩ 50).angle = 140 := by
    show min 180 (max 0 ((90 : ℚ) + 50)) = 140
    rw [max_eq_right (by norm_num : (0:ℚ) ≤ 90 + 50),
        min_eq_right (by norm_num : (90:ℚ) + 50 ≤ 180)]
    norm_num
  refine ⟨by decide, h1, fun hinv => ?_⟩
  have h2 : (140 : ℚ) ≤ 120 := h1 ▸ hinv.2
  norm_num at h2

/-- Claim C4 (confirmed): after `moveTo(target, secs)` the cached angle
equals the clamp of `target` to `[lowAngle, highAngle]`; the very last
servo command issued is that exact clamped angle (the force-set after the
step loop); hence the final angle lies in `[lowAngle, highAngle]`
regardless of the requested target. -/
theorem claim_C4 (j : Joint) (h : j.lowAngle ≤ j.highAngle) (target secs : ℚ) :
    (moveTo j target secs).angle = limitedAngle j target ∧
    ((moveToRun j target secs).2).getLast? = some (limitedAngle j target) ∧
    j.lowAngle ≤ (moveTo j target secs).angle ∧
    (moveTo j target secs).angle ≤ j.highAngle := by
  have hmem := limitedAngle_mem j h target
  refine ⟨moveTo_angle j target secs, ?_, ?_, ?_⟩
  · simp [moveToRun]
  · rw [moveTo_angle]; exact hmem.1
  · rw [moveTo_angle]; exact hmem.2

/-- Witness for C4: range 60..120, current angle 90, requested target 500. -/
theorem claim_C4_w :
    (60 : ℚ) ≤ 120 ∧
    ((moveTo ⟨90, 120, 60, 1, 90⟩ 500 2).angle = limitedAngle ⟨90, 120, 60, 1, 90⟩ 500 ∧
     ((moveToRun ⟨90, 120, 60, 1, 90⟩ 500 2).2).getLast? =
       some (limitedAngle ⟨90, 120, 60, 1, 90⟩ 500) ∧
     (60 : ℚ) ≤ (moveTo ⟨90, 120, 60, 1, 90⟩ 500 2).angle ∧
     (moveTo ⟨90, 120, 60, 1, 90⟩ 500 2).angle ≤ 120) :=
  ⟨by norm_num, claim_C4 ⟨90, 120, 60, 1, 90⟩ (by norm_num) 500 2⟩

/-- Claim C7 (corrected): the step loop of `moveTo` executes
`int(abs(delta) * stepsPerDegree)` iterations — Python `int()` truncation,
i.e. the floor for this nonnegative product — not `round(...)` as the spec
says.  The command list is those loop steps plus the final force-set. -/
theorem claim_C7 (j : Joint) (h : 0 ≤ j.stepsPerDegree) (target secs : ℚ) :
    moveToLoopSteps j target =
      (⌊|limitedAngle j target - j.angle| * j.stepsPerDegree⌋).toNat ∧
    (moveToRun j target secs).2.length = moveToLoopSteps j target + 1 := by
  constructor
  · have hnn : 0 ≤ |limitedAngle j target - j.angle| * j.stepsPerDegree :=
      mul_nonneg (abs_nonneg _) h
    rw [moveToLoopSteps, pyInt, if_pos hnn]
  · show ((List.range (moveToLoopSteps j target)).map
        (fun i : ℕ => j.angle + (limitedAngle j target - j.angle) *
          ease (((i : ℚ) / j.stepsPerDegree) / |limitedAngle j target - j.angle|)) ++
        [limitedAngle j target]).length = moveToLoopSteps j target + 1
    rw [List.length_append, List.length_map, List.length_range, List.length_singleton]

/-- Witness for C7: stepsPerDegree 1, current angle 90, target 91.5. -/
theorem claim_C7_w :
    (0 : ℚ) ≤ 1 ∧
    (moveToLoopSteps ⟨90, 180, 0, 1, 90⟩ (183/2) =
      (⌊|limitedAngle ⟨90, 180, 0, 1, 90⟩ (183/2) - (90 : ℚ)| * 1⌋).toNat ∧
     (moveToRun ⟨90, 180, 0, 1, 90⟩ (183/2) 1).2.length =
       moveToLoopSteps ⟨90, 180, 0, 1, 90⟩ (183/2) + 1) :=
  ⟨by norm_num, claim_C7 ⟨90, 180, 0, 1, 90⟩ (by norm_num) (183/2) 1⟩

/-- Counterexample to C7 as stated: with stepsPerDegree 1, current angle 90
and clamped target 91.5 we have |delta|×stepsPerDegree = 1.5; the loop
executes `int(1.5) = 1` iteration, while `round(1.5) = 2`. -/
theorem claim_C7_cx :
    moveToLoopSteps ⟨90, 180, 0, 1, 90⟩ (183/2) = 1 ∧
    (round (|limitedAngle ⟨90, 180, 0, 1, 90⟩ (183/2) - (90 : ℚ)| * 1)).toNat = 2 ∧
    (1 : ℕ) ≠ 2 := by
  have hla : limitedAngle ⟨90, 180, 0, 1, 90⟩ (183/2) = 183/2 := by
    rw [limitedAngle]
    norm_num
  have habs : |limitedAngle ⟨90, 180, 0, 1, 90⟩ (183/2) - (90 : ℚ)| * 1 = 3/2 := by
    rw [hla, abs_of_nonneg (by norm_num : (0:ℚ) ≤ 183/2 - 90)]
    norm_num
  refine ⟨?_, ?_, by decide⟩
  · rw [moveToLoopSteps]
    show (pyInt (|limitedAngle ⟨90, 180, 0, 1, 90⟩ (183/2) - (90 : ℚ)| * 1)).toNat = 1
    rw [habs, pyInt, if_pos (by norm_num : (0:ℚ) ≤ 3/2),
        show ⌊(3/2 : ℚ)⌋ = 1 by norm_num]
    decide
  · rw [habs, round_eq, show ⌊(3/2 : ℚ) + 1/2⌋ = 2 by norm_num]
    decide

/-- Claim C10 (confirmed): `moveTo` is total even when the clamped target
equals the current angle: the division computing the per-step wait is
guarded by `abs(delta) > 0` (so the wait stays 0 and no division is
performed), the step loop executes zero iterations, and the servo is still
commanded exactly once, at the unchanged final angle. -/
theorem claim_C10 (j : Joint) (secs target : ℚ)
    (h : limitedAngle j target = j.angle) :
    moveToWait j target secs = 0 ∧
    moveToLoopSteps j target = 0 ∧
    (moveToRun j target secs).2 = [j.angle] ∧
    (moveTo j target secs).angle = j.angle := by
  have hd : limitedAngle j target - j.angle = 0 := by rw [h]; ring
  refine ⟨?_, ?_, ?_, ?_⟩
  · rw [moveToWait]
    simp [hd]
  · rw [moveToLoopSteps, hd]
    simp [pyInt]
  · have hs : moveToLoopSteps j target = 0 := by
      rw [moveToLoopSteps, hd]; simp [pyInt]
    simp [moveToRun, hs, h]
  · rw [moveTo_angle, h]

/-- Witness for C10: target equal to the current angle (clamp is identity). -/
theorem claim_C10_w :
    limitedAngle ⟨90, 120, 60, 1, 90⟩ 90 = (90 : ℚ) ∧
    (moveToWait ⟨90, 120, 60, 1, 90⟩ 90 2 = 0 ∧
     moveToLoopSteps ⟨90, 120, 60, 1, 90⟩ 90 = 0 ∧
     (moveToRun ⟨90, 120, 60, 1, 90⟩ 90 2).2 = [(90 : ℚ)] ∧
     (moveTo ⟨90, 120, 60, 1, 90⟩ 90 2).angle = 90) :=
  ⟨by decide, claim_C10 ⟨90, 120, 60, 1, 90⟩ 2 90 (by decide)⟩

/-! ### leg.py : the Leg class

A `Leg` has a hip joint, a knee joint and a `direction` (+1 = left,
-1 = right).  Compound moves are modelled as the ordered list of joint
commands they issue (which joint, relative to which reference angle, with
what offset and duration); `runThreadsTogether` starts the listed commands
and waits for all, so the command list order is the source order. -/

def HIPMOVEMENT : ℚ := 30
def KNEEMOVEMENT : ℚ := 15

inductive JointId where
  | hip
  | knee
deriving DecidableEq

/-- A joint command issued by a compound leg move: move the named joint
relative to its mid / low / high reference angle. -/
inductive LegCmd where
  | relMid (j : JointId) (deltaAngle secs : ℚ)
  | relLow (j : JointId) (deltaAngle secs : ℚ)
  | relHigh (j : JointId) (deltaAngle secs : ℚ)
deriving DecidableEq

structure Leg where
  hip : Joint
  knee : Joint
  direction : ℚ
deriving DecidableEq

/-- `Leg.kneeFullDown(t)`: knee to its high reference on the right
(`direction = -1`), to its low reference otherwise. -/
def kneeFullDown (leg : Leg) (t : ℚ) : List LegCmd :=
  if leg.direction = -1 then [LegCmd.relHigh JointId.knee 0 t]
  else [LegCmd.relLow JointId.knee 0 t]

/-- `Leg.reachForward(t)`: knee up to `KNEEMOVEMENT`, then concurrently
knee to `2*KNEEMOVEMENT*direction` and hip to `-HIPMOVEMENT*direction`
(both relative to mid), then `kneeFullDown`. -/
def reachForward (leg : Leg) (t : ℚ) : List LegCmd :=
  let hipOffset := -HIPMOVEMENT * leg.direction
  let kneeOffset := 2 * KNEEMOVEMENT * leg.direction
  [LegCmd.relMid JointId.knee KNEEMOVEMENT (t/2),
   LegCmd.relMid JointId.knee kneeOffset (t/2),
   LegCmd.relMid JointId.hip hipOffset (t/2)] ++ kneeFullDown leg (t/2)

/-- `Leg.reachBackward(t)`: as `reachForward` but hip to
`+HIPMOVEMENT*direction`. -/
def reachBackward (leg : Leg) (t : ℚ) : List LegCmd :=
  let hipOffset := HIPMOVEMENT * leg.direction
  let kneeOffset := 2 * KNEEMOVEMENT * leg.direction
  [LegCmd.relMid JointId.knee KNEEMOVEMENT (t/2),
   LegCmd.relMid JointId.knee kneeOffset (t/2),
   LegCmd.relMid JointId.hip hipOffset (t/2)] ++ kneeFullDown leg (t/2)

/-- `Leg.pushBackward(t)`: hip to `+HIPMOVEMENT*direction` relative to
mid. -/
def pushBackward (leg : Leg) (t : ℚ) : List LegCmd :=
  [LegCmd.relMid JointId.hip (HIPMOVEMENT * leg.direction) t]

/-- `Leg.pushForward(t)`: hip to `-HIPMOVEMENT*direction` relative to
mid. -/
def pushForward (leg : Leg) (t : ℚ) : List LegCmd :=
  [LegCmd.relMid JointId.hip (-HIPMOVEMENT * leg.direction) t]

/-- The hip offsets from `midAngle` commanded by a list of leg commands. -/
def hipMidOffsets (cmds : List LegCmd) : List ℚ :=
  cmds.filterMap fun c =>
    match c with
    | LegCmd.relMid JointId.hip d _ => some d
    | _ => none

/-- Claim C8 (confirmed): for two legs with the same joint calibration,
one with `direction = +1` (left) and one with `direction = -1` (right),
each of `reachForward`, `pushForward` and `pushBackward` commands
hip-joint offsets from `midAngle` that are exact negations of each other
(the left offsets are the pointwise negation of the right offsets). -/
theorem claim_C8 (l r : Leg) (hl : l.direction = 1) (hr : r.direction = -1)
    (hhip : l.hip = r.hip) (hknee : l.knee = r.knee) (t : ℚ) :
    hipMidOffsets (reachForward l t) =
      (hipMidOffsets (reachForward r t)).map (fun x => -x) ∧
    hipMidOffsets (pushForward l t) =
      (hipMidOffsets (pushForward r t)).map (fun x => -x) ∧
    hipMidOffsets (pushBackward l t) =
      (hipMidOffsets (pushBackward r t)).map (fun x => -x) := by
  refine ⟨?_, ?_, ?_⟩ <;>
    simp [reachForward, pushForward, pushBackward, kneeFullDown,
      hipMidOffsets, hl, hr, HIPMOVEMENT, KNEEMOVEMENT] <;>
    norm_num

/-- Witness for C8 at two concrete legs sharing the default calibration. -/
theorem claim_C8_w :
    (Leg.mk ⟨90, 180, 0, 1, 90⟩ ⟨90, 180, 0, 1, 90⟩ 1).direction = 1 ∧
    (Leg.mk ⟨90, 180, 0, 1, 90⟩ ⟨90, 180, 0, 1, 90⟩ (-1)).direction = -1 ∧
    (hipMidOffsets (reachForward (Leg.mk ⟨90, 180, 0, 1, 90⟩ ⟨90, 180, 0, 1, 90⟩ 1) 2) =
      (hipMidOffsets (reachForward (Leg.mk ⟨90, 180, 0, 1, 90⟩ ⟨90, 180, 0, 1, 90⟩ (-1)) 2)).map
        (fun x => -x) ∧
     hipMidOffsets (pushForward (Leg.mk ⟨90, 180, 0, 1, 90⟩ ⟨90, 180, 0, 1, 90⟩ 1) 2) =
      (hipMidOffsets (pushForward (Leg.mk ⟨90, 180, 0, 1, 90⟩ ⟨90, 180, 0, 1, 90⟩ (-1)) 2)).map
        (fun x => -x) ∧
     hipMidOffsets (pushBackward (Leg.mk ⟨90, 180, 0, 1, 90⟩ ⟨90, 180, 0, 1, 90⟩ 1) 2) =
      (hipMidOffsets (pushBackward (Leg.mk ⟨90, 180, 0, 1, 90⟩ ⟨90, 180, 0, 1, 90⟩ (-1)) 2)).map
        (fun x => -x)) :=
  ⟨rfl, rfl,
   claim_C8 (Leg.mk ⟨90, 180, 0, 1, 90⟩ ⟨90, 180, 0, 1, 90⟩ 1)
     (Leg.mk ⟨90, 180, 0, 1, 90⟩ ⟨90, 180, 0, 1, 90⟩ (-1)) rfl rfl rfl rfl 2⟩

/-! ### animal.py : the per-leg thread scheduler (`Animal._runOnThread`)

`_threads` maps a leg id to the thread (task) last submitted for that leg,
or `None`.  `_runOnThread(legId, func, params)` joins the thread currently
recorded for `legId` (if any), then starts a new thread and records it.
Threads are identified by the value of `_threadCount` at creation (the
counter is part of the generated thread name and increments each time).
The optional random pre-wait (`waitMult`) only delays the call and is not
modelled.  A run is modelled by the event trace it emits: `join t` when an
existing thread is waited on, `start legId t` when a new thread is
started. -/

inductive SchedEvent where
  | join (tid : ℕ)
  | start (legId : String) (tid : ℕ)
deriving DecidableEq

structure SchedState where
  threads : String → Option ℕ
  threadCount : ℕ

/-- `Animal._runOnThread`: join the thread recorded for `legId` if there is
one, then start a fresh thread (numbered `threadCount`) and record it. -/
def runOnThread (s : SchedState) (legId : String) : SchedState × List SchedEvent :=
  let joinEvs : List SchedEvent :=
    match s.threads legId with
    | some t => [SchedEvent.join t]
    | none => []
  ({ threads := fun k => if k = legId then some s.threadCount else s.threads k,
     threadCount := s.threadCount + 1 },
   joinEvs ++ [SchedEvent.start legId s.threadCount])

/-- Scheduler state after `Animal.__init__` / `addPairOfLegs`: every slot
`None`, `_threadCount = 0`. -/
def initSched : SchedState := { threads := fun _ => none, threadCount := 0 }

/-- Run a sequence of `_runOnThread` submissions, accumulating the trace. -/
def runSched (s : SchedState) : List String → SchedState × List SchedEvent
  | [] => (s, [])
  | legId :: rest =>
      let step := runOnThread s legId
      let next := runSched step.1 rest
      (next.1, step.2 ++ next.2)

/-- Thread ids started for a given leg in a trace. -/
def startedFor (tr : List SchedEvent) (legId : String) : List ℕ :=
  tr.filterMap fun e =>
    match e with
    | SchedEvent.start l t => if l = legId then some t else none
    | SchedEvent.join _ => none

/-- Thread ids joined (waited to completion) in a trace. -/
def joinedTids (tr : List SchedEvent) : List ℕ :=
  tr.filterMap fun e =>
    match e with
    | SchedEvent.join t => some t
    | SchedEvent.start _ _ => none

/-- Non-finished movement tasks of a leg at the end of a trace: started for
that leg and never joined. -/
def unfinished (tr : List SchedEvent) (legId : String) : List ℕ :=
  (startedFor tr legId).filter fun t => decide (t ∉ joinedTids tr)

lemma startedFor_append (a b : List SchedEvent) (l : String) :
    startedFor (a ++ b) l = startedFor a l ++ startedFor b l := by
  simp [startedFor]

lemma joinedTids_append (a b : List SchedEvent) :
    joinedTids (a ++ b) = joinedTids a ++ joinedTids b := by
  simp [joinedTids]

lemma mem_unfinished {tr : List SchedEvent} {l : String} {t : ℕ} :
    t ∈ unfinished tr l ↔ t ∈ startedFor tr l ∧ t ∉ joinedTids tr := by
  simp [unfinished, List.mem_filter]

/-- The scheduler invariant relating a reachable state to its trace: the
non-finished tasks of a leg are exactly (at most) the task recorded in its
slot; every started or joined task id, and every recorded slot id, is below
the counter; and no task id is ever started twice for the same leg. -/
def SchedInv (s : SchedState) (tr : List SchedEvent) : Prop :=
  (∀ l t, t ∈ unfinished tr l → s.threads l = some t) ∧
  (∀ l t, t ∈ startedFor tr l → t < s.threadCount) ∧
  (∀ t, t ∈ joinedTids tr → t < s.threadCount) ∧
  (∀ l, (startedFor tr l).Nodup) ∧
  (∀ l t, s.threads l = some t → t < s.threadCount)

lemma schedInv_step {s : SchedState} {tr : List SchedEvent}
    (h : SchedInv s tr) (legId : String) :
    SchedInv (runOnThread s legId).1 (tr ++ (runOnThread s legId).2) := by
  unfold SchedInv at h ⊢
  obtain ⟨h1, h2, h3, h4, h5⟩ := h
  have hevs2 : startedFor (runOnThread s legId).2 legId = [s.threadCount] := by
    cases hsl : s.threads legId <;> simp [runOnThread, startedFor, hsl]
  have hevs2n : ∀ l, l ≠ legId → startedFor (runOnThread s legId).2 l = [] := by
    intro l hl
    cases hsl : s.threads legId <;>
      simp [runOnThread, startedFor, hsl, Ne.symm hl]
  have hevsj : ∀ t, t ∈ joinedTids (runOnThread s legId).2 →
      s.threads legId = some t := by
    intro t ht
    cases hsl : s.threads legId with
    | none => simp [runOnThread, joinedTids, hsl] at ht
    | some t0 =>
        simp [runOnThread, joinedTids, hsl] at ht
        rw [ht]
  have hevsj' : ∀ t0, s.threads legId = some t0 →
      t0 ∈ joinedTids (runOnThread s legId).2 := by
    intro t0 hsl
    simp [runOnThread, joinedTids, hsl]
  have hthreads_eq : ∀ l, l ≠ legId →
      (runOnThread s legId).1.threads l = s.threads l := by
    intro l hl
    simp [runOnThread, hl]
  have hthreads_leg : (runOnThread s legId).1.threads legId =
      some s.threadCount := by
    simp [runOnThread]
  have hcount : (runOnThread s legId).1.threadCount = s.threadCount + 1 := rfl
  refine ⟨?_, ?_, ?_, ?_, ?_⟩
  · intro l t ht
    rw [mem_unfinished, startedFor_append, joinedTids_append] at ht
    obtain ⟨hs, hj⟩ := ht
    have hjold : t ∉ joinedTids tr := fun hc => hj (List.mem_append_left _ hc)
    rcases List.mem_append.mp hs with hold | hnew
    · have hth : s.threads l = some t := h1 l t (mem_unfinished.mpr ⟨hold, hjold⟩)
      by_cases hle : l = legId
      · subst hle
        exact absurd (List.mem_append_right _ (hevsj' t hth)) hj
      · rw [hthreads_eq l hle]
        exact hth
    · by_cases hle : l = legId
      · subst hle
        rw [hevs2, List.mem_singleton] at hnew
        subst hnew
        exact hthreads_leg
      · rw [hevs2n l hle] at hnew
        exact absurd hnew (List.not_mem_nil t)
  · intro l t ht
    rw [startedFor_append] at ht
    rw [hcount]
    rcases List.mem_append.mp ht with hold | hnew
    · exact Nat.lt_succ_of_lt (h2 l t hold)
    · by_cases hle : l = legId
      · subst hle
        rw [hevs2, List.mem_singleton] at hnew
        subst hnew
        exact Nat.lt_succ_self _
      · rw [hevs2n l hle] at hnew
        exact absurd hnew (List.not_mem_nil t)
  · intro t ht
    rw [joinedTids_append] at ht
    rw [hcount]
    rcases List.mem_append.mp ht with hold | hnew
    · exact Nat.lt_succ_of_lt (h3 t hold)
    · exact Nat.lt_succ_of_lt (h5 legId t (hevsj t hnew))
  · intro l
    rw [startedFor_append]
    by_cases hle : l = legId
    · subst hle
      rw [hevs2]
      refine (h4 _).append (List.nodup_singleton _) ?_
      intro a ha hb
      rw [List.mem_singleton] at hb
      subst hb
      exact absurd (h2 _ _ ha) (lt_irrefl _)
    · rw [hevs2n l hle, List.append_nil]
      exact h4 l
  · intro l t ht
    rw [hcount]
    by_cases hle : l = legId
    · subst hle
      rw [hthreads_leg] at ht
      injection ht with h'
      subst h'
      exact Nat.lt_succ_self _
    · rw [hthreads_eq l hle] at ht
      exact Nat.lt_succ_of_lt (h5 l t ht)

lemma runSched_inv (legIds : List String) :
    ∀ (s : SchedState) (tr : List SchedEvent), SchedInv s tr →
      SchedInv (runSched s legIds).1 (tr ++ (runSched s legIds).2) := by
  induction legIds with
  | nil => intro s tr h; simpa [runSched] using h
  | cons x xs ih =>
      intro s tr h
      have hstep := schedInv_step h x
      have hrec := ih (runOnThread s x).1 (tr ++ (runOnThread s x).2) hstep
      simpa [runSched, List.append_assoc] using hrec

lemma length_le_one_of_nodup_of_const {l : List ℕ}
    (hn : l.Nodup) (hc : ∀ x ∈ l, ∀ y ∈ l, x = y) : l.length ≤ 1 := by
  match l with
  | [] => simp
  | [a] => simp
  | a :: b :: rest =>
      exfalso
      have hab : a = b := hc a (by simp) b (by simp)
      have hnc := List.nodup_cons.mp hn
      exact hnc.1 (hab ▸ List.mem_cons_self b rest)

lemma schedInv_unfinished_len {s : SchedState} {tr : List SchedEvent}
    (h : SchedInv s tr) (l : String) : (unfinished tr l).length ≤ 1 := by
  unfold SchedInv at h
  obtain ⟨h1, _, _, h4, _⟩ := h
  apply length_le_one_of_nodup_of_const
  · exact (h4 l).filter _
  · intro x hx y hy
    have hxs := h1 l x hx
    have hys := h1 l y hy
    rw [hxs] at hys
    injection hys

/-- Claim C1 (confirmed): per-actuator serialization.  When a movement is
submitted for a leg via `_runOnThread`, the task previously recorded in
that leg's slot (if any) is joined before the new task is started, and the
new task is then recorded in the slot; consequently, in any run of
submissions from the initial scheduler state, every leg has at most one
non-finished movement task at any point. -/
theorem claim_C1 (s : SchedState) (legId : String) (t : ℕ)
    (h : s.threads legId = some t) (legIds : List String) (l : String) :
    (runOnThread s legId).2 =
      [SchedEvent.join t, SchedEvent.start legId s.threadCount] ∧
    (runOnThread s legId).1.threads legId = some s.threadCount ∧
    (runOnThread s legId).1.threadCount = s.threadCount + 1 ∧
    (unfinished (runSched initSched legIds).2 l).length ≤ 1 := by
  refine ⟨?_, ?_, rfl, ?_⟩
  · simp [runOnThread, h]
  · simp [runOnThread]
  · have h0 : SchedInv initSched [] := by
      unfold SchedInv
      refine ⟨?_, ?_, ?_, ?_, ?_⟩ <;>
        simp [unfinished, startedFor, joinedTids, initSched]
    have hinv := runSched_inv legIds initSched [] h0
    rw [List.nil_append] at hinv
    exact schedInv_unfinished_len hinv l

/-- Witness for C1: a state with thread 5 recorded for leg L0 and counter
7; submissions L0, L0, R0 from the initial state. -/
theorem claim_C1_w :
    (SchedState.mk (fun k => if k = "L0" then some 5 else none) 7).threads "L0" =
      some 5 ∧
    ((runOnThread (SchedState.mk (fun k => if k = "L0" then some 5 else none) 7)
        "L0").2 = [SchedEvent.join 5, SchedEvent.start "L0" 7] ∧
     (runOnThread (SchedState.mk (fun k => if k = "L0" then some 5 else none) 7)
        "L0").1.threads "L0" = some 7 ∧
     (runOnThread (SchedState.mk (fun k => if k = "L0" then some 5 else none) 7)
        "L0").1.threadCount = 7 + 1 ∧
     (unfinished (runSched initSched ["L0", "L0", "R0"]).2 "L0").length ≤ 1) :=
  ⟨by simp, claim_C1 (SchedState.mk (fun k => if k = "L0" then some 5 else none) 7)
    "L0" 5 (by simp) ["L0", "L0", "R0"] "L0"⟩

/-! ### animal.py : the action layer (`runAction` / `stopCurrentAction`)

`runAction(func)` first calls `stopCurrentAction()`, which sets the
`_stopped` flag, joins the current `_actionThread` (if any) and resets the
flag; note that the call `self._stopMovements()` inside
`stopCurrentAction` is commented out in the source, so no stop command is
sent to the actuators there — the running gait itself observes `_stopped`
at a phase boundary.  Then, if `func` is given, a new action thread is
started and recorded in `_actionThread` (the finished previous thread
object is not cleared when `func is None`).  `_handleAction(func, msg)`
(random_animal.py) is `runAction(func)` followed by recording
`_currentAction = msg`.  Action threads are identified by a counter. -/

inductive ActEvent where
  | setStopped (b : Bool)
  | joinAction (tid : ℕ)
  | startAction (tid : ℕ)
  | stopAllServos
deriving DecidableEq

structure ActionState where
  actionThread : Option ℕ
  stopped : Bool
  currentAction : Option String
  tidCounter : ℕ
deriving DecidableEq

/-- `Animal.stopCurrentAction`: set `_stopped`, join the action thread if
there is one, reset `_stopped`.  (`_stopMovements()` is commented out.) -/
def stopCurrentAction (s : ActionState) : ActionState × List ActEvent :=
  let joinEvs : List ActEvent :=
    match s.actionThread with
    | some t => [ActEvent.joinAction t]
    | none => []
  ({ s with stopped := false },
   ActEvent.setStopped true :: (joinEvs ++ [ActEvent.setStopped false]))

/-- `Animal.runAction(func)`: stop the current action, then start and
record a new action thread when `func` is provided. -/
def runAction (s : ActionState) (func : Option String) :
    ActionState × List ActEvent :=
  let stop := stopCurrentAction s
  match func with
  | some _ =>
      ({ stop.1 with actionThread := some stop.1.tidCounter,
                     tidCounter := stop.1.tidCounter + 1 },
       stop.2 ++ [ActEvent.startAction stop.1.tidCounter])
  | none => stop

/-- `RandomAnimal._handleAction(func, msg)`: `runAction(func)` then record
`_currentAction = msg`. -/
def handleAction (s : ActionState) (func : Option String) (code : String) :
    ActionState × List ActEvent :=
  let r := runAction s func
  ({ r.1 with currentAction := some code }, r.2)

def initAction : ActionState :=
  { actionThread := none, stopped := false, currentAction := none,
    tidCounter := 0 }

/-- Run a sequence of `_handleAction` calls, accumulating the trace. -/
def runActions (s : ActionState) :
    List (Option String × String) → ActionState × List ActEvent
  | [] => (s, [])
  | (func, code) :: rest =>
      let step := handleAction s func code
      let next := runActions step.1 rest
      (next.1, step.2 ++ next.2)

/-- Action-thread ids started in a trace. -/
def startedActs (tr : List ActEvent) : List ℕ :=
  tr.filterMap fun e =>
    match e with
    | ActEvent.startAction t => some t
    | _ => none

/-- Action-thread ids joined in a trace. -/
def joinedActs (tr : List ActEvent) : List ℕ :=
  tr.filterMap fun e =>
    match e with
    | ActEvent.joinAction t => some t
    | _ => none

/-- Non-finished action tasks at the end of a trace. -/
def unfinishedActs (tr : List ActEvent) : List ℕ :=
  (startedActs tr).filter fun t => decide (t ∉ joinedActs tr)

lemma startedActs_append (a b : List ActEvent) :
    startedActs (a ++ b) = startedActs a ++ startedActs b := by
  simp [startedActs]

lemma joinedActs_append (a b : List ActEvent) :
    joinedActs (a ++ b) = joinedActs a ++ joinedActs b := by
  simp [joinedActs]

lemma mem_unfinishedActs {tr : List ActEvent} {t : ℕ} :
    t ∈ unfinishedActs tr ↔ t ∈ startedActs tr ∧ t ∉ joinedActs tr := by
  simp [unfinishedActs, List.mem_filter]

/-- Invariant relating a reachable action-layer state to its trace. -/
def ActInv (s : ActionState) (tr : List ActEvent) : Prop :=
  (∀ t, t ∈ unfinishedActs tr → s.actionThread = some t) ∧
  (∀ t, t ∈ startedActs tr → t < s.tidCounter) ∧
  (∀ t, t ∈ joinedActs tr → t < s.tidCounter) ∧
  (startedActs tr).Nodup ∧
  (∀ t, s.actionThread = some t → t < s.tidCounter)

lemma startedActs_stop (s : ActionState) :
    startedActs (stopCurrentAction s).2 = [] := by
  cases hsl : s.actionThread <;> simp [stopCurrentAction, startedActs, hsl]

lemma joinedActs_stop (s : ActionState) :
    joinedActs (stopCurrentAction s).2 = (s.actionThread).toList := by
  cases hsl : s.actionThread <;> simp [stopCurrentAction, joinedActs, hsl]

lemma actInv_stop {s : ActionState} {tr : List ActEvent} (h : ActInv s tr) :
    ActInv (stopCurrentAction s).1 (tr ++ (stopCurrentAction s).2) ∧
    (∀ t, t ∉ unfinishedActs (tr ++ (stopCurrentAction s).2)) := by
  unfold ActInv at h
  obtain ⟨h1, h2, h3, h4, h5⟩ := h
  have hempty : ∀ t, t ∉ unfinishedActs (tr ++ (stopCurrentAction s).2) := by
    intro t ht
    rw [mem_unfinishedActs, startedActs_append, startedActs_stop,
        List.append_nil, joinedActs_append, joinedActs_stop] at ht
    obtain ⟨hs, hj⟩ := ht
    by_cases hjo : t ∈ joinedActs tr
    · exact hj (List.mem_append_left _ hjo)
    · have hslot := h1 t (mem_unfinishedActs.mpr ⟨hs, hjo⟩)
      apply hj
      apply List.mem_append_right
      rw [Option.mem_toList, Option.mem_def]
      exact hslot
  refine ⟨⟨?_, ?_, ?_, ?_, ?_⟩, hempty⟩
  · intro t ht
    exact absurd ht (hempty t)
  · intro t ht
    rw [startedActs_append, startedActs_stop, List.append_nil] at ht
    exact h2 t ht
  · intro t ht
    rw [joinedActs_append, joinedActs_stop] at ht
    rcases List.mem_append.mp ht with hold | hnew
    · exact h3 t hold
    · rw [Option.mem_toList, Option.mem_def] at hnew
      exact h5 t hnew
  · rw [startedActs_append, startedActs_stop, List.append_nil]
    exact h4
  · intro t ht
    exact h5 t ht

lemma actInv_run {s : ActionState} {tr : List ActEvent} (h : ActInv s tr)
    (func : Option String) :
    ActInv (runAction s func).1 (tr ++ (runAction s func).2) := by
  obtain ⟨⟨g1, g2, g3, g4, g5⟩, hemp⟩ := actInv_stop h
  cases func with
  | none => exact ⟨g1, g2, g3, g4, g5⟩
  | some f =>
      have hsplit : tr ++ (runAction s (some f)).2 =
          (tr ++ (stopCurrentAction s).2) ++
            [ActEvent.startAction s.tidCounter] := by
        simp only [runAction, List.append_assoc]
        rfl
      unfold ActInv
      rw [hsplit]
      have hstart1 : startedActs [ActEvent.startAction s.tidCounter] =
          [s.tidCounter] := by simp [startedActs]
      have hjoin1 : joinedActs [ActEvent.startAction s.tidCounter] = [] := by
        simp [joinedActs]
      have hcnt : (stopCurrentAction s).1.tidCounter = s.tidCounter := rfl
      refine ⟨?_, ?_, ?_, ?_, ?_⟩
      · intro t ht
        rw [mem_unfinishedActs, startedActs_append, hstart1,
            joinedActs_append, hjoin1, List.append_nil] at ht
        obtain ⟨hs, hj⟩ := ht
        rcases List.mem_append.mp hs with hold | hnew
        · exact absurd (mem_unfinishedActs.mpr ⟨hold, hj⟩)
            (hemp t)
        · rw [List.mem_singleton] at hnew
          subst hnew
          rfl
      · intro t ht
        rw [startedActs_append, hstart1] at ht
        show t < s.tidCounter + 1
        rcases List.mem_append.mp ht with hold | hnew
        · exact Nat.lt_succ_of_lt (g2 t hold)
        · rw [List.mem_singleton] at hnew
          subst hnew
          exact Nat.lt_succ_self _
      · intro t ht
        rw [joinedActs_append, hjoin1, List.append_nil] at ht
        show t < s.tidCounter + 1
        exact Nat.lt_succ_of_lt (g3 t ht)
      · rw [startedActs_append, hstart1]
        refine g4.append (List.nodup_singleton _) ?_
        intro a ha hb
        rw [List.mem_singleton] at hb
        subst hb
        exact absurd (g2 _ ha) (lt_irrefl _)
      · intro t ht
        show t < s.tidCounter + 1
        have : (runAction s (some f)).1.actionThread = some s.tidCounter := rfl
        rw [this] at ht
        injection ht with h'
        subst h'
        exact Nat.lt_succ_self _

lemma actInv_handle {s : ActionState} {tr : List ActEvent} (h : ActInv s tr)
    (func : Option String) (code : String) :
    ActInv (handleAction s func code).1 (tr ++ (handleAction s func code).2) := by
  obtain ⟨g1, g2, g3, g4, g5⟩ := actInv_run h func
  exact ⟨g1, g2, g3, g4, g5⟩

lemma runActions_inv (runs : List (Option String × String)) :
    ∀ (s : ActionState) (tr : List ActEvent), ActInv s tr →
      ActInv (runActions s runs).1 (tr ++ (runActions s runs).2) := by
  induction runs with
  | nil => intro s tr h; simpa [runActions] using h
  | cons x xs ih =>
      intro s tr h
      obtain ⟨func, code⟩ := x
      have hstep := actInv_handle h func code
      have hrec := ih _ _ hstep
      simpa [runActions, List.append_assoc] using hrec

lemma actInv_unfinished_len {s : ActionState} {tr : List ActEvent}
    (h : ActInv s tr) : (unfinishedActs tr).length ≤ 1 := by
  unfold ActInv at h
  obtain ⟨h1, _, _, h4, _⟩ := h
  apply length_le_one_of_nodup_of_const
  · exact h4.filter _
  · intro x hx y hy
    have hxs := h1 x hx
    have hys := h1 y hy
    rw [hxs] at hys
    injection hys

/-- Claim C2 (corrected): starting a new action via
`_handleAction(func, code)` first stops the previous action by setting the
stopped flag and joining (awaiting) the previous action's thread — it does
not call `stopAll`/`_stopMovements` on the actuators (that call is
commented out in `stopCurrentAction`) — then launches the new gait as a
new task recorded in the slot and records `currentAction = code`.  In any
run of `_handleAction` calls from the initial state, at most one
gait-level action task is unfinished at any point. -/
theorem claim_C2 (s : ActionState) (t : ℕ) (h : s.actionThread = some t)
    (f code : String) (runs : List (Option String × String)) :
    (handleAction s (some f) code).2 =
      [ActEvent.setStopped true, ActEvent.joinAction t,
       ActEvent.setStopped false, ActEvent.startAction s.tidCounter] ∧
    ActEvent.stopAllServos ∉ (handleAction s (some f) code).2 ∧
    (handleAction s (some f) code).1.currentAction = some code ∧
    (handleAction s (some f) code).1.actionThread = some s.tidCounter ∧
    (unfinishedActs (runActions initAction runs).2).length ≤ 1 := by
  have htr : (handleAction s (some f) code).2 =
      [ActEvent.setStopped true, ActEvent.joinAction t,
       ActEvent.setStopped false, ActEvent.startAction s.tidCounter] := by
    simp [handleAction, runAction, stopCurrentAction, h]
  refine ⟨htr, ?_, rfl, rfl, ?_⟩
  · rw [htr]
    simp
  · have h0 : ActInv initAction [] := by
      unfold ActInv
      refine ⟨?_, ?_, ?_, ?_, ?_⟩ <;>
        simp [unfinishedActs, startedActs, joinedActs, initAction]
    have hinv := runActions_inv runs initAction [] h0
    rw [List.nil_append] at hinv
    exact actInv_unfinished_len hinv

/-- Witness for C2: a state with action thread 3 recorded and counter 4,
and a concrete run of three `_handleAction` calls. -/
theorem claim_C2_w :
    (ActionState.mk (some 3) false (some "F") 4).actionThread = some 3 ∧
    ((handleAction (ActionState.mk (some 3) false (some "F") 4)
        (some "_backward") "B").2 =
      [ActEvent.setStopped true, ActEvent.joinAction 3,
       ActEvent.setStopped false, ActEvent.startAction 4] ∧
     ActEvent.stopAllServos ∉
       (handleAction (ActionState.mk (some 3) false (some "F") 4)
         (some "_backward") "B").2 ∧
     (handleAction (ActionState.mk (some 3) false (some "F") 4)
         (some "_backward") "B").1.currentAction = some "B" ∧
     (handleAction (ActionState.mk (some 3) false (some "F") 4)
         (some "_backward") "B").1.actionThread = some 4 ∧
     (unfinishedActs (runActions initAction
         [(some "_forward", "F"), (none, "W"), (some "_left", "L")]).2).length ≤ 1) :=
  ⟨rfl, claim_C2 (ActionState.mk (some 3) false (some "F") 4) 3 rfl
    "_backward" "B" [(some "_forward", "F"), (none, "W"), (some "_left", "L")]⟩

/-- Counterexample to C2 as stated: at a concrete state with a running
previous action, the trace of `_handleAction` contains no stop-all command
to the actuators (`stopCurrentAction` only sets the stopped flag and joins;
its `_stopMovements()` call is commented out in the source). -/
theorem claim_C2_cx :
    ActEvent.stopAllServos ∉
      (handleAction (ActionState.mk (some 0) false (some "F") 1)
        (some "_forward") "B").2 := by
  decide

/-! ### random_animal.py : behaviour engine state, tick dispatch, timer,
interrupt

State fields follow `RandomAnimal.__init__` (plus the `age`, `alertness`
and `_stopped` fields inherited from `Animal`).  `_interruptBeingHandled`
is initialised to `None` in Python and only ever tested for truthiness, so
it is modelled as a `Bool`. -/

structure EngineState where
  currentAction : Option Char
  timerDelay : ℤ
  timerAction : Option Char
  timerAgeStart : ℤ
  interruptId : Option String
  interruptValue : Option ℤ
  interruptBeingHandled : Bool
  stopped : Bool
  age : ℤ
  alertness : ℤ
  lastHumanDetectAge : ℤ
deriving DecidableEq

inductive EngEvent where
  | unPauseSensors
deriving DecidableEq

/-- `RandomAnimal.interrupt(id, value)`: return unchanged if an interrupt
is already live; return (after unpausing the head sensors) if the id is
`"human-detect"` (heat sensing is ignored — the second, age-guarded
human-detect check in the source is unreachable dead code but is kept
here); otherwise record the interrupt id and value. -/
def interruptCall (s : EngineState) (id : String) (value : ℤ) :
    EngineState × List EngEvent :=
  if s.interruptId.isSome then (s, [])
  else if id = "human-detect" then (s, [EngEvent.unPauseSensors])
  else if id = "human-detect" ∧ s.age - s.lastHumanDetectAge < 60 then
    (s, [EngEvent.unPauseSensors])
  else ({ s with interruptId := some id, interruptValue := some value }, [])

/-- What one iteration of the `_runRandom` tick loop dispatches to, in the
priority order of the source: a due timer fires first (and the iteration
restarts via `continue`); otherwise the escape self-checks, then a live
interrupt, then the tracking hold, then the random choice (only while in
the forward action on a 5-tick cadence), else nothing. -/
inductive TickDispatch where
  | fireTimer (action : Char)
  | checkEscape
  | checkEscapeLeftAntenna
  | checkEscapeRightAntenna
  | handleInterrupt
  | trackingContinue
  | randomChoice
  | idle
deriving DecidableEq

/-- The `elif` chain of `_runRandom` after the timer check. -/
def tickRest (s : EngineState) : TickDispatch :=
  if s.interruptId = some "escape" then TickDispatch.checkEscape
  else if s.interruptId = some "escape-left-antenna" then
    TickDispatch.checkEscapeLeftAntenna
  else if s.interruptId = some "escape-right-antenna" then
    TickDispatch.checkEscapeRightAntenna
  else if s.interruptId.isSome then TickDispatch.handleInterrupt
  else if s.currentAction = some 'T' then TickDispatch.trackingContinue
  else if s.currentAction = some 'F' ∧ s.age % 5 = 0 then
    TickDispatch.randomChoice
  else TickDispatch.idle

/-- One iteration of `_runRandom`: if a timer is set and has come of age,
execute it (and `continue`); otherwise fall through to the `elif` chain. -/
def tickDispatch (s : EngineState) : TickDispatch :=
  match s.timerAction with
  | some a =>
      if s.age - s.timerAgeStart ≥ s.timerDelay then TickDispatch.fireTimer a
      else tickRest s
  | none => tickRest s

/-- `RandomAnimal._executeTimer`: clear the timer action, delay and start
age, and return the action to be run. -/
def executeTimer (s : EngineState) : EngineState × Option Char :=
  ({ s with timerAction := none, timerDelay := 0, timerAgeStart := 0 },
   s.timerAction)

/-- Claim C5 (confirmed): in any tick where a timer is set and
`age − timerAgeStart ≥ timerDelay`, the tick dispatches to the timer (the
timer's target action is executed and the timer action, delay and start
are all reset), and neither interrupt handling nor the random choice runs
in that iteration — a due timer preempts everything, including a live
un-handled interrupt. -/
theorem claim_C5 (s : EngineState) (a : Char) (h1 : s.timerAction = some a)
    (h2 : s.age - s.timerAgeStart ≥ s.timerDelay) :
    tickDispatch s = TickDispatch.fireTimer a ∧
    (executeTimer s).2 = some a ∧
    (executeTimer s).1.timerAction = none ∧
    (executeTimer s).1.timerDelay = 0 ∧
    (executeTimer s).1.timerAgeStart = 0 ∧
    tickDispatch s ≠ TickDispatch.handleInterrupt ∧
    tickDispatch s ≠ TickDispatch.randomChoice := by
  have hd : tickDispatch s = TickDispatch.fireTimer a := by
    simp [tickDispatch, h1, h2]
  refine ⟨hd, ?_, rfl, rfl, rfl, ?_, ?_⟩
  · rw [executeTimer, h1]
  · rw [hd]
    simp
  · rw [hd]
    simp

/-- Witness for C5 at a state where both a due timer and a live un-handled
interrupt exist: the timer wins. -/
theorem claim_C5_w :
    (EngineState.mk (some 'F') 5 (some '*') 0 (some "short-distance") (some 0)
        false false 10 120 (-999)).timerAction = some '*' ∧
    (EngineState.mk (some 'F') 5 (some '*') 0 (some "short-distance") (some 0)
        false false 10 120 (-999)).age -
      (EngineState.mk (some 'F') 5 (some '*') 0 (some "short-distance") (some 0)
        false false 10 120 (-999)).timerAgeStart ≥
      (EngineState.mk (some 'F') 5 (some '*') 0 (some "short-distance") (some 0)
        false false 10 120 (-999)).timerDelay ∧
    (tickDispatch (EngineState.mk (some 'F') 5 (some '*') 0
        (some "short-distance") (some 0) false false 10 120 (-999)) =
       TickDispatch.fireTimer '*' ∧
     (executeTimer (EngineState.mk (some 'F') 5 (some '*') 0
        (some "short-distance") (some 0) false false 10 120 (-999))).2 = some '*' ∧
     (executeTimer (EngineState.mk (some 'F') 5 (some '*') 0
        (some "short-distance") (some 0) false false 10 120 (-999))).1.timerAction = none ∧
     (executeTimer (EngineState.mk (some 'F') 5 (some '*') 0
        (some "short-distance") (some 0) false false 10 120 (-999))).1.timerDelay = 0 ∧
     (executeTimer (EngineState.mk (some 'F') 5 (some '*') 0
        (some "short-distance") (some 0) false false 10 120 (-999))).1.timerAgeStart = 0 ∧
     tickDispatch (EngineState.mk (some 'F') 5 (some '*') 0
        (some "short-distance") (some 0) false false 10 120 (-999)) ≠
       TickDispatch.handleInterrupt ∧
     tickDispatch (EngineState.mk (some 'F') 5 (some '*') 0
        (some "short-distance") (some 0) false false 10 120 (-999)) ≠
       TickDispatch.randomChoice) :=
  ⟨rfl, by decide,
   claim_C5 (EngineState.mk (some 'F') 5 (some '*') 0 (some "short-distance")
     (some 0) false false 10 120 (-999)) '*' rfl (by decide)⟩

/-- Claim C6 (confirmed): calling `interrupt(id, value)` while an
interrupt is already live is a no-op — the state is returned unchanged
(in particular the interrupt id and value, the being-handled flag, all
three timer fields and the current action keep their prior values) and no
side effect is emitted. -/
theorem claim_C6 (s : EngineState) (pid : String)
    (h : s.interruptId = some pid) (id : String) (v : ℤ) :
    (interruptCall s id v).1 = s ∧
    (interruptCall s id v).2 = [] ∧
    (interruptCall s id v).1.interruptId = s.interruptId ∧
    (interruptCall s id v).1.interruptValue = s.interruptValue ∧
    (interruptCall s id v).1.interruptBeingHandled = s.interruptBeingHandled ∧
    (interruptCall s id v).1.timerAction = s.timerAction ∧
    (interruptCall s id v).1.timerDelay = s.timerDelay ∧
    (interruptCall s id v).1.timerAgeStart = s.timerAgeStart ∧
    (interruptCall s id v).1.currentAction = s.currentAction := by
  have hs : s.interruptId.isSome = true := by rw [h]; rfl
  have h1 : interruptCall s id v = (s, []) := by
    rw [interruptCall, if_pos hs]
  rw [h1]
  exact ⟨rfl, rfl, rfl, rfl, rfl, rfl, rfl, rfl, rfl⟩

/-- Witness for C6: a live `"escape"` interrupt, a new `"left-antenna"`
interrupt arrives, nothing changes. -/
theorem claim_C6_w :
    (EngineState.mk (some 'B') 30 (some 'F') 2 (some "escape") (some 0)
        true false 7 100 (-999)).interruptId = some "escape" ∧
    ((interruptCall (EngineState.mk (some 'B') 30 (some 'F') 2 (some "escape")
        (some 0) true false 7 100 (-999)) "left-antenna" 0).1 =
      EngineState.mk (some 'B') 30 (some 'F') 2 (some "escape") (some 0)
        true false 7 100 (-999) ∧
     (interruptCall (EngineState.mk (some 'B') 30 (some 'F') 2 (some "escape")
        (some 0) true false 7 100 (-999)) "left-antenna" 0).2 = [] ∧
     (interruptCall (EngineState.mk (some 'B') 30 (some 'F') 2 (some "escape")
        (some 0) true false 7 100 (-999)) "left-antenna" 0).1.interruptId =
       (EngineState.mk (some 'B') 30 (some 'F') 2 (some "escape") (some 0)
        true false 7 100 (-999)).interruptId ∧
     (interruptCall (EngineState.mk (some 'B') 30 (some 'F') 2 (some "escape")
        (some 0) true false 7 100 (-999)) "left-antenna" 0).1.interruptValue =
       (EngineState.mk (some 'B') 30 (some 'F') 2 (some "escape") (some 0)
        true false 7 100 (-999)).interruptValue ∧
     (interruptCall (EngineState.mk (some 'B') 30 (some 'F') 2 (some "escape")
        (some 0) true false 7 100 (-999)) "left-antenna" 0).1.interruptBeingHandled =
       (EngineState.mk (some 'B') 30 (some 'F') 2 (some "escape") (some 0)
        true false 7 100 (-999)).interruptBeingHandled ∧
     (interruptCall (EngineState.mk (some 'B') 30 (some 'F') 2 (some "escape")
        (some 0) true false 7 100 (-999)) "left-antenna" 0).1.timerAction =
       (EngineState.mk (some 'B') 30 (some 'F') 2 (some "escape") (some 0)
        true false 7 100 (-999)).timerAction ∧
     (interruptCall (EngineState.mk (some 'B') 30 (some 'F') 2 (some "escape")
        (some 0) true false 7 100 (-999)) "left-antenna" 0).1.timerDelay =
       (EngineState.mk (some 'B') 30 (some 'F') 2 (some "escape") (some 0)
        true false 7 100 (-999)).timerDelay ∧
     (interruptCall (EngineState.mk (some 'B') 30 (some 'F') 2 (some "escape")
        (some 0) true false 7 100 (-999)) "left-antenna" 0).1.timerAgeStart =
       (EngineState.mk (some 'B') 30 (some 'F') 2 (some "escape") (some 0)
        true false 7 100 (-999)).timerAgeStart ∧
     (interruptCall (EngineState.mk (some 'B') 30 (some 'F') 2 (some "escape")
        (some 0) true false 7 100 (-999)) "left-antenna" 0).1.currentAction =
       (EngineState.mk (some 'B') 30 (some 'F') 2 (some "escape") (some 0)
        true false 7 100 (-999)).currentAction) :=
  ⟨rfl, claim_C6 (EngineState.mk (some 'B') 30 (some 'F') 2 (some "escape")
    (some 0) true false 7 100 (-999)) "escape" rfl "left-antenna" 0⟩

/-- Claim C9 (corrected): a raised `"human-detect"` interrupt received
while no interrupt is live is ignored by `interrupt()`: the head sensors
are unpaused and the engine state is returned unchanged — no switch to the
movement-tracking action and no timer armed.  (The human-detect tracking
branch of `_handleInterrupt` is unreachable through `interrupt()`.) -/
theorem claim_C9 (s : EngineState) (h : s.interruptId = none) (v : ℤ) :
    interruptCall s "human-detect" v = (s, [EngEvent.unPauseSensors]) ∧
    (interruptCall s "human-detect" v).1.currentAction = s.currentAction ∧
    (interruptCall s "human-detect" v).1.timerAction = s.timerAction ∧
    (interruptCall s "human-detect" v).1.interruptId = none := by
  have hs : s.interruptId.isSome = true ↔ False := by rw [h]; simp
  have h1 : interruptCall s "human-detect" v = (s, [EngEvent.unPauseSensors]) := by
    rw [interruptCall, if_neg (by simp [hs]), if_pos rfl]
  refine ⟨h1, by rw [h1], by rw [h1], by rw [h1]; exact h⟩

/-- Witness for C9: concrete idle forward state, human-detect raised. -/
theorem claim_C9_w :
    (EngineState.mk (some 'F') 0 none 0 none none false false 42 100
        (-999)).interruptId = none ∧
    (interruptCall (EngineState.mk (some 'F') 0 none 0 none none false false
        42 100 (-999)) "human-detect" 25 =
      (EngineState.mk (some 'F') 0 none 0 none none false false 42 100 (-999),
       [EngEvent.unPauseSensors]) ∧
     (interruptCall (EngineState.mk (some 'F') 0 none 0 none none false false
        42 100 (-999)) "human-detect" 25).1.currentAction =
       (EngineState.mk (some 'F') 0 none 0 none none false false 42 100
        (-999)).currentAction ∧
     (interruptCall (EngineState.mk (some 'F') 0 none 0 none none false false
        42 100 (-999)) "human-detect" 25).1.timerAction =
       (EngineState.mk (some 'F') 0 none 0 none none false false 42 100
        (-999)).timerAction ∧
     (interruptCall (EngineState.mk (some 'F') 0 none 0 none none false false
        42 100 (-999)) "human-detect" 25).1.interruptId = none) :=
  ⟨rfl, claim_C9 (EngineState.mk (some 'F') 0 none 0 none none false false
    42 100 (-999)) rfl 25⟩

/-- Counterexample to C9 as stated: at a concrete state with no live
interrupt, raising `"human-detect"` leaves the engine state unchanged —
the current action does not become the tracking action and no timer is
armed (the source ignores heat detection: "heat sensing didn't work!"). -/
theorem claim_C9_cx :
    (interruptCall (EngineState.mk (some 'F') 0 none 0 none none false false
        0 120 (-999)) "human-detect" 0).1 =
      EngineState.mk (some 'F') 0 none 0 none none false false 0 120 (-999) ∧
    (interruptCall (EngineState.mk (some 'F') 0 none 0 none none false false
        0 120 (-999)) "human-detect" 0).1.currentAction ≠ some 'T' ∧
    (interruptCall (EngineState.mk (some 'F') 0 none 0 none none false false
        0 120 (-999)) "human-detect" 0).1.timerAction = none ∧
    (interruptCall (EngineState.mk (some 'F') 0 none 0 none none false false
        0 120 (-999)) "human-detect" 0).1.interruptId = none := by
  decide

end WalkingBot
